import Mathlib

/-!
Verification of the concurrency-primitive benchmarks of this repository:
the completion-object (future) snapshot read paths of
`bench_lockless_finished.py`, and the deadline-ordered timer-handle heap
exercised by `bench/timer_handle_heap.py`.

The snapshot functions are embedded directly from the source.  The state
field of a Python future is a string (the source compares it against
string literals), so it is modelled as `String`; the result and exception
slots are `Option` values over arbitrary payload types.
-/

/-- A completion object (future), as the snapshot functions read it:
a string state field, an optional result and an optional exception. -/
structure Future (α ε : Type) where
  _state : String
  _result : Option α
  _exception : Option ε
deriving Repr, DecidableEq

/-- The 4-tuple returned by a snapshot read:
(is_done, is_cancelled, value_or_none, error_or_none). -/
abbrev Snapshot (α ε : Type) := Bool × Bool × Option α × Option ε

/-- Embedding of `_get_snapshot_with_lock` from `bench_lockless_finished.py`
(lines 11-18): under the condition lock, FINISHED returns the payload,
the two cancelled states return (True, True, None, None), anything else
returns (False, False, None, None). -/
def _get_snapshot_with_lock {α ε : Type} (self : Future α ε) : Snapshot α ε :=
  if self._state = "FINISHED" then
    (true, false, self._result, self._exception)
  else if self._state = "CANCELLED" ∨ self._state = "CANCELLED_AND_NOTIFIED" then
    (true, true, none, none)
  else
    (false, false, none, none)

/-- Embedding of `_get_snapshot_lockless_finished` from
`bench_lockless_finished.py` (lines 22-34): an unlocked fast check for
FINISHED, then the fully locked re-check with the same three branches. -/
def _get_snapshot_lockless_finished {α ε : Type} (self : Future α ε) : Snapshot α ε :=
  if self._state = "FINISHED" then
    (true, false, self._result, self._exception)
  else
    if self._state = "FINISHED" then
      (true, false, self._result, self._exception)
    else if self._state = "CANCELLED" ∨ self._state = "CANCELLED_AND_NOTIFIED" then
      (true, true, none, none)
    else
      (false, false, none, none)

/-- The lockless read with its two observation points made explicit for
races: `pre` is the object as seen by the unlocked fast check (and, when
that check sees FINISHED, by the unlocked payload reads), `post` is the
object as seen after the lock is acquired in the fallback path.  Running
it with `pre = post` is exactly `_get_snapshot_lockless_finished`. -/
def _get_snapshot_lockless_race {α ε : Type} (pre post : Future α ε) : Snapshot α ε :=
  if pre._state = "FINISHED" then
    (true, false, pre._result, pre._exception)
  else
    if post._state = "FINISHED" then
      (true, false, post._result, post._exception)
    else if post._state = "CANCELLED" ∨ post._state = "CANCELLED_AND_NOTIFIED" then
      (true, true, none, none)
    else
      (false, false, none, none)

/-!
State-threading embedding of the two snapshot functions for the frame
property: a Python method receives `self` and may assign to its fields,
so the faithful effectful embedding returns the produced tuple together
with the `self` the method leaves behind.  Neither source function
contains an assignment to any field of `self`, which the embedding
records by threading `self` through unchanged.
-/

/-- `_get_snapshot_with_lock` with the final `self` made explicit; the
source body (lines 11-18) only reads fields, so `self` passes through. -/
def _get_snapshot_with_lock_st {α ε : Type} (self : Future α ε) :
    Snapshot α ε × Future α ε :=
  (if self._state = "FINISHED" then
    (true, false, self._result, self._exception)
  else if self._state = "CANCELLED" ∨ self._state = "CANCELLED_AND_NOTIFIED" then
    (true, true, none, none)
  else
    (false, false, none, none), self)

/-- `_get_snapshot_lockless_finished` with the final `self` made
explicit; the source body (lines 22-34) only reads fields. -/
def _get_snapshot_lockless_finished_st {α ε : Type} (self : Future α ε) :
    Snapshot α ε × Future α ε :=
  (if self._state = "FINISHED" then
    (true, false, self._result, self._exception)
  else
    if self._state = "FINISHED" then
      (true, false, self._result, self._exception)
    else if self._state = "CANCELLED" ∨ self._state = "CANCELLED_AND_NOTIFIED" then
      (true, true, none, none)
    else
      (false, false, none, none), self)

/-!
Interleaving model for the reader-writer race (claim C4).  The resolving
writer publishes once: it writes the payload fields first and flips the
state flag to FINISHED last, and after that nothing changes.  Reads and
writes of single fields are the atomic events; `resolveTrace f0 r e t`
is the shared object after `t` writer steps, and a racing reader samples
the trace at non-decreasing instants.
-/

/-- Modelled from the spec: the write sequence of a resolving writer
(`set_result` or `set_exception`, repository code not present under
src): the result and exception slots are fully populated before the
state flag flips to FINISHED, and the object never changes afterwards. -/
def resolveTrace {α ε : Type} (f0 : Future α ε) (r : Option α) (e : Option ε) :
    Nat → Future α ε
  | 0 => f0
  | 1 => { f0 with _result := r }
  | 2 => { f0 with _result := r, _exception := e }
  | _ + 3 => { f0 with _result := r, _exception := e, _state := "FINISHED" }

/-- The lockless snapshot read racing the writer: the unlocked fast
check samples the state at instant `t0` and, when it sees FINISHED, the
payload at instants `t1` and `t2`; otherwise the fallback holds the lock
and sees the one consistent object at instant `tL`. -/
def read_snapshot_racing {α ε : Type} (tr : Nat → Future α ε)
    (t0 t1 t2 tL : Nat) : Snapshot α ε :=
  if (tr t0)._state = "FINISHED" then
    (true, false, (tr t1)._result, (tr t2)._exception)
  else
    if (tr tL)._state = "FINISHED" then
      (true, false, (tr tL)._result, (tr tL)._exception)
    else if (tr tL)._state = "CANCELLED" ∨ (tr tL)._state = "CANCELLED_AND_NOTIFIED" then
      (true, true, none, none)
    else
      (false, false, none, none)

/-!
Resolution operations of the completion object (claim C5).  The Future
class itself (concurrent.futures) is repository code not present under
src; only the benchmark driver calls it.  The operations are therefore
modelled from the spec.  Failure of set_result / set_exception is a
raised error, modelled as `Except.error`; every operation also returns
the object it leaves behind, so that "unchanged on failure" is a plain
equation.
-/

/-- The terminal states of the completion object: FINISHED and the two
cancelled states; no operation ever leaves any of them. -/
def isTerminalState (s : String) : Bool :=
  s == "FINISHED" || s == "CANCELLED" || s == "CANCELLED_AND_NOTIFIED"

/-- Modelled from the spec: `set_result(value)` transitions PENDING or
RUNNING to FINISHED with the given value and raises a logic error,
never silently overwriting, when the object is already resolved. -/
def Future.set_result {α ε : Type} (self : Future α ε) (v : α) :
    Except String Unit × Future α ε :=
  if self._state = "PENDING" ∨ self._state = "RUNNING" then
    (Except.ok (), { self with _state := "FINISHED", _result := some v })
  else
    (Except.error "InvalidStateError", self)

/-- Modelled from the spec: `set_exception(error)` transitions PENDING
or RUNNING to FINISHED carrying an error payload instead of a value,
with the same terminality constraint as `set_result`. -/
def Future.set_exception {α ε : Type} (self : Future α ε) (er : ε) :
    Except String Unit × Future α ε :=
  if self._state = "PENDING" ∨ self._state = "RUNNING" then
    (Except.ok (), { self with _state := "FINISHED", _exception := some er })
  else
    (Except.error "InvalidStateError", self)

/-- Modelled from the spec: `cancel()` transitions PENDING or RUNNING to
CANCELLED and returns whether cancellation succeeded, false when the
object is already terminal. -/
def Future.cancel {α ε : Type} (self : Future α ε) : Bool × Future α ε :=
  if self._state = "PENDING" ∨ self._state = "RUNNING" then
    (true, { self with _state := "CANCELLED" })
  else
    (false, self)

/-!
Deadline heap scheduler (claims C6, C7, C8).  The benchmark
`bench/timer_handle_heap.py` pushes asyncio TimerHandle objects bare
into a heapq min-heap; both TimerHandle and heapq are repository code
not present under src, so the handle, its order and the heap are
modelled from the spec.  The heap is abstracted by the sequence of its
stored handles in increasing (deadline, sequence) order: push is
ordered insertion, pop removes the head, which is the minimum.
-/

/-- Modelled from the spec: a timer handle — an absolute deadline (a
fixed-point instant, modelled as Int), a monotonically increasing
insertion sequence number used as tie-breaker, a cancelled flag, and an
opaque callback (modelled as a label). -/
structure TimerHandle where
  _when : Int
  seq : Nat
  _cancelled : Bool
  callback : String
deriving Repr, DecidableEq

/-- Modelled from the spec: the strict handle order, lexicographic on
the pair (deadline, sequence number); the handle itself is directly
orderable, with no external wrapper. -/
def TimerHandle.lt (a b : TimerHandle) : Prop :=
  a._when < b._when ∨ (a._when = b._when ∧ a.seq < b.seq)

/-- The reflexive closure of the handle order, used for sortedness. -/
def TimerHandle.le (a b : TimerHandle) : Prop :=
  a._when < b._when ∨ (a._when = b._when ∧ a.seq ≤ b.seq)

instance decidableTimerHandleLt : DecidableRel TimerHandle.lt := fun a b => by
  unfold TimerHandle.lt; exact inferInstance

instance decidableTimerHandleLe : DecidableRel TimerHandle.le := fun a b => by
  unfold TimerHandle.le; exact inferInstance

instance : IsTotal TimerHandle TimerHandle.le :=
  ⟨fun a b => by unfold TimerHandle.le; omega⟩

instance : IsTrans TimerHandle TimerHandle.le :=
  ⟨fun a b c hab hbc => by unfold TimerHandle.le at *; omega⟩

/-- Modelled from the spec: pushing a handle into the binary min-heap,
abstracted as ordered insertion into the sorted handle sequence. -/
def heappush (heap : List TimerHandle) (h : TimerHandle) : List TimerHandle :=
  List.orderedInsert TimerHandle.le h heap

/-- Modelled from the spec: popping the minimum of the binary min-heap,
abstracted as removing the head of the sorted handle sequence; none on
an empty heap. -/
def heappop : List TimerHandle → Option (TimerHandle × List TimerHandle)
  | [] => none
  | h :: rest => some (h, rest)

/-- Repeatedly popping the heap until it is empty, collecting the
handles in pop order. -/
def popAll : List TimerHandle → List TimerHandle
  | [] => []
  | h :: rest => h :: popAll rest

/-- The scheduler: its heap of pending handles and the next fresh
sequence number. -/
structure Scheduler where
  heap : List TimerHandle
  nextSeq : Nat

/-- Modelled from the spec: `schedule(deadline, callback)` constructs a
handle with a fresh sequence number, inserts it into the heap and
returns it so the caller may cancel it later. -/
def schedule (s : Scheduler) (deadline : Int) (cb : String) :
    TimerHandle × Scheduler :=
  let h : TimerHandle := ⟨deadline, s.nextSeq, false, cb⟩
  (h, ⟨heappush s.heap h, s.nextSeq + 1⟩)

/-- Scheduling a whole list of (deadline, callback) requests in order. -/
def schedAll (s : Scheduler) : List (Int × String) → Scheduler
  | [] => s
  | (d, cb) :: rest => schedAll (schedule s d cb).2 rest

/-- Modelled from the spec: `cancel(handle)` sets the cancelled flag of
the handle, reached through its identity (its sequence number), without
touching the physical heap structure. -/
def cancelSeq (s : Scheduler) (sq : Nat) : Scheduler :=
  ⟨s.heap.map (fun h => if h.seq = sq then { h with _cancelled := true } else h),
    s.nextSeq⟩

/-- Modelled from the spec: `pop_ready(now)` repeatedly removes the
minimum-deadline handle, discarding cancelled ones; it stops at the
first non-cancelled handle, returning it when its deadline is ≤ now and
returning none (heap unchanged past the discarded entries) when the
minimum deadline is in the future or the heap is exhausted. -/
def pop_ready : List TimerHandle → Int → Option TimerHandle × List TimerHandle
  | [], _ => (none, [])
  | h :: rest, now =>
    if h._cancelled then pop_ready rest now
    else if h._when ≤ now then (some h, rest)
    else (none, h :: rest)

theorem lockless_race_diag {α ε : Type} (f : Future α ε) :
    _get_snapshot_lockless_race f f = _get_snapshot_lockless_finished f := rfl

/-- Claim C1: both snapshot implementations return
(True, False, result, error) when the state is FINISHED,
(True, True, None, None) when it is CANCELLED or CANCELLED_AND_NOTIFIED,
and (False, False, None, None) for every other state value. -/
theorem snapshot_case_analysis {α ε : Type} (f : Future α ε) :
    (f._state = "FINISHED" →
      _get_snapshot_with_lock f = (true, false, f._result, f._exception) ∧
      _get_snapshot_lockless_finished f = (true, false, f._result, f._exception)) ∧
    (f._state = "CANCELLED" ∨ f._state = "CANCELLED_AND_NOTIFIED" →
      _get_snapshot_with_lock f = (true, true, none, none) ∧
      _get_snapshot_lockless_finished f = (true, true, none, none)) ∧
    (f._state ≠ "FINISHED" → f._state ≠ "CANCELLED" → f._state ≠ "CANCELLED_AND_NOTIFIED" →
      _get_snapshot_with_lock f = (false, false, none, none) ∧
      _get_snapshot_lockless_finished f = (false, false, none, none)) := by
  refine ⟨fun hF => ?_, fun hC => ?_, fun h1 h2 h3 => ?_⟩
  · simp [_get_snapshot_with_lock, _get_snapshot_lockless_finished, hF]
  · have hF : f._state ≠ "FINISHED" := by rcases hC with h | h <;> simp [h]
    simp [_get_snapshot_with_lock, _get_snapshot_lockless_finished, hF, hC]
  · simp [_get_snapshot_with_lock, _get_snapshot_lockless_finished, h1, h2, h3]

theorem snapshot_case_analysis_witness :
    _get_snapshot_with_lock (⟨"FINISHED", some 42, (none : Option String)⟩ : Future Nat String)
      = (true, false, some 42, none) :=
  ((snapshot_case_analysis ⟨"FINISHED", some 42, none⟩).1 rfl).1

/-- Claim C2: for a state held fixed during the call, the with-lock and
the lockless snapshot implementations return identical 4-tuples; the
lockless variant changes no observable result. -/
theorem snapshot_impls_agree {α ε : Type} (f : Future α ε) :
    _get_snapshot_lockless_finished f = _get_snapshot_with_lock f := by
  unfold _get_snapshot_lockless_finished _get_snapshot_with_lock
  by_cases hF : f._state = "FINISHED" <;> simp [hF]

/-- Claim C3: in the lockless implementation, a call whose unlocked fast
check does not see FINISHED takes the fully-synchronized path and
re-checks the state after acquiring the lock: the result is exactly the
with-lock read of the post-lock state, so in particular if the state has
become FINISHED by lock acquisition the call returns
(True, False, result, error), never a stale not-done snapshot. -/
theorem lockless_fallback_rechecks {α ε : Type} (pre post : Future α ε)
    (hpre : pre._state ≠ "FINISHED") :
    _get_snapshot_lockless_race pre post = _get_snapshot_with_lock post ∧
    (post._state = "FINISHED" →
      _get_snapshot_lockless_race pre post
        = (true, false, post._result, post._exception)) := by
  constructor
  · unfold _get_snapshot_lockless_race _get_snapshot_with_lock
    simp [hpre]
  · intro hpost
    unfold _get_snapshot_lockless_race
    simp [hpre, hpost]

theorem lockless_fallback_rechecks_witness :
    _get_snapshot_lockless_race
        (⟨"PENDING", none, none⟩ : Future Nat String)
        (⟨"FINISHED", some 7, none⟩ : Future Nat String)
      = (true, false, some 7, none) :=
  (lockless_fallback_rechecks ⟨"PENDING", none, none⟩ ⟨"FINISHED", some 7, none⟩
    (by decide)).2 rfl

/-- Claim C9: both snapshot implementations are pure reads: each returns
exactly the tuple of the pure read and leaves every field of the object
(state, result, exception) unchanged. -/
theorem snapshot_reads_are_pure {α ε : Type} (f : Future α ε) :
    _get_snapshot_with_lock_st f = (_get_snapshot_with_lock f, f) ∧
    _get_snapshot_lockless_finished_st f = (_get_snapshot_lockless_finished f, f) ∧
    (_get_snapshot_with_lock_st f).2._state = f._state ∧
    (_get_snapshot_with_lock_st f).2._result = f._result ∧
    (_get_snapshot_with_lock_st f).2._exception = f._exception ∧
    (_get_snapshot_lockless_finished_st f).2._state = f._state ∧
    (_get_snapshot_lockless_finished_st f).2._result = f._result ∧
    (_get_snapshot_lockless_finished_st f).2._exception = f._exception := by
  refine ⟨rfl, rfl, rfl, rfl, rfl, rfl, rfl, rfl⟩

/-- Claim C10: both snapshot implementations are total over the state
field: any state value outside the three recognised terminal strings,
recognised or not (RUNNING, PENDING, or an arbitrary unknown string),
falls to the catch-all branch and yields the well-formed not-done tuple
(False, False, None, None). -/
theorem snapshot_total_over_states {α ε : Type} (f : Future α ε)
    (h1 : f._state ≠ "FINISHED") (h2 : f._state ≠ "CANCELLED")
    (h3 : f._state ≠ "CANCELLED_AND_NOTIFIED") :
    _get_snapshot_with_lock f = (false, false, none, none) ∧
    _get_snapshot_lockless_finished f = (false, false, none, none) := by
  unfold _get_snapshot_with_lock _get_snapshot_lockless_finished
  simp [h1, h2, h3]

theorem snapshot_total_over_states_witness :
    _get_snapshot_with_lock (⟨"SOME_UNKNOWN_STATE", none, none⟩ : Future Nat String)
        = (false, false, none, none) ∧
    _get_snapshot_lockless_finished
        (⟨"SOME_UNKNOWN_STATE", none, none⟩ : Future Nat String)
        = (false, false, none, none) :=
  snapshot_total_over_states ⟨"SOME_UNKNOWN_STATE", none, none⟩
    (by decide) (by decide) (by decide)

theorem resolveTrace_state_iff {α ε : Type} (f0 : Future α ε) (r : Option α)
    (e : Option ε) (hp : f0._state ≠ "FINISHED") (t : Nat) :
    (resolveTrace f0 r e t)._state = "FINISHED" ↔ 3 ≤ t := by
  rcases t with _ | _ | _ | n <;> simp [resolveTrace, hp]

theorem resolveTrace_result_of_le {α ε : Type} (f0 : Future α ε) (r : Option α)
    (e : Option ε) (t : Nat) (ht : 1 ≤ t) : (resolveTrace f0 r e t)._result = r := by
  rcases t with _ | _ | _ | n <;> simp [resolveTrace] at *

theorem resolveTrace_exception_of_le {α ε : Type} (f0 : Future α ε) (r : Option α)
    (e : Option ε) (t : Nat) (ht : 2 ≤ t) : (resolveTrace f0 r e t)._exception = e := by
  rcases t with _ | _ | _ | n <;> simp [resolveTrace] at *

/-- Claim C4: when the lockless read races a resolving writer, no
interleaving of the field-level reads with the writer steps can observe
is_done = True, is_cancelled = False with a missing or partial payload:
the returned pair is exactly the complete final payload, and every
object state in which any later reader sees FINISHED carries the same
final payload. -/
theorem finished_implies_full_payload {α ε : Type} (f0 : Future α ε)
    (r : Option α) (e : Option ε) (hp : f0._state ≠ "FINISHED")
    (t0 t1 t2 tL : Nat) (h01 : t0 ≤ t1) (h12 : t1 ≤ t2)
    (hdone : (read_snapshot_racing (resolveTrace f0 r e) t0 t1 t2 tL).1 = true)
    (hnc : (read_snapshot_racing (resolveTrace f0 r e) t0 t1 t2 tL).2.1 = false) :
    (read_snapshot_racing (resolveTrace f0 r e) t0 t1 t2 tL).2.2 = (r, e) ∧
    ∀ t, (resolveTrace f0 r e t)._state = "FINISHED" →
      (resolveTrace f0 r e t)._result = r ∧ (resolveTrace f0 r e t)._exception = e := by
  have hfinal : ∀ t, (resolveTrace f0 r e t)._state = "FINISHED" →
      (resolveTrace f0 r e t)._result = r ∧ (resolveTrace f0 r e t)._exception = e := by
    intro t ht
    have h3 : 3 ≤ t := (resolveTrace_state_iff f0 r e hp t).mp ht
    exact ⟨resolveTrace_result_of_le f0 r e t (by omega),
      resolveTrace_exception_of_le f0 r e t (by omega)⟩
  refine ⟨?_, hfinal⟩
  unfold read_snapshot_racing at hdone hnc ⊢
  by_cases hfast : (resolveTrace f0 r e t0)._state = "FINISHED"
  · have h3 : 3 ≤ t0 := (resolveTrace_state_iff f0 r e hp t0).mp hfast
    simp only [hfast, if_pos]
    rw [resolveTrace_result_of_le f0 r e t1 (by omega),
      resolveTrace_exception_of_le f0 r e t2 (by omega)]
  · by_cases hL : (resolveTrace f0 r e tL)._state = "FINISHED"
    · have hpl := hfinal tL hL
      simp [hfast, hL, hpl.1, hpl.2]
    · by_cases hC : (resolveTrace f0 r e tL)._state = "CANCELLED" ∨
          (resolveTrace f0 r e tL)._state = "CANCELLED_AND_NOTIFIED"
      · simp [hfast, hL, hC] at hnc
      · simp [hfast, hL, hC] at hdone

theorem finished_implies_full_payload_witness :
    (read_snapshot_racing
        (resolveTrace (⟨"PENDING", none, none⟩ : Future Nat String) (some 42) none)
        3 3 3 0).2.2 = (some 42, none) :=
  (finished_implies_full_payload (⟨"PENDING", none, none⟩ : Future Nat String)
    (some 42) none (by decide) 3 3 3 0 (by decide) (by decide)
    (by decide) (by decide)).1

/-- Claim C5: at most one of set_result / set_exception / cancel ever
succeeds.  On an already-terminal object, set_result and set_exception
raise and cancel returns False, all three leaving state and payload
unchanged; and every successful operation leaves the object terminal,
so any later resolution attempt fails. -/
theorem resolution_single_assignment {α ε : Type} (f : Future α ε) (v : α) (er : ε) :
    (isTerminalState f._state = true →
      Future.set_result f v = (Except.error "InvalidStateError", f) ∧
      Future.set_exception f er = (Except.error "InvalidStateError", f) ∧
      Future.cancel f = (false, f)) ∧
    ((Future.set_result f v).1 = Except.ok () →
      isTerminalState (Future.set_result f v).2._state = true) ∧
    ((Future.set_exception f er).1 = Except.ok () →
      isTerminalState (Future.set_exception f er).2._state = true) ∧
    ((Future.cancel f).1 = true →
      isTerminalState (Future.cancel f).2._state = true) := by
  by_cases h : f._state = "PENDING" ∨ f._state = "RUNNING"
  · have hterm : isTerminalState f._state = false := by
      rcases h with h | h <;> simp [isTerminalState, h]
    refine ⟨fun hc => ?_, fun _ => ?_, fun _ => ?_, fun _ => ?_⟩
    · rw [hterm] at hc; exact absurd hc (by simp)
    · simp [Future.set_result, h, isTerminalState]
    · simp [Future.set_exception, h, isTerminalState]
    · simp [Future.cancel, h, isTerminalState]
  · refine ⟨fun _ => ?_, fun hc => ?_, fun hc => ?_, fun hc => ?_⟩
    · simp [Future.set_result, Future.set_exception, Future.cancel, h]
    · simp [Future.set_result, h] at hc
    · simp [Future.set_exception, h] at hc
    · simp [Future.cancel, h] at hc

theorem resolution_single_assignment_witness :
    Future.cancel (⟨"FINISHED", some 42, none⟩ : Future Nat String)
      = (false, ⟨"FINISHED", some 42, none⟩) :=
  ((resolution_single_assignment (⟨"FINISHED", some 42, none⟩ : Future Nat String)
    5 "e").1 (by decide)).2.2

theorem TimerHandle.le_when {a b : TimerHandle} (h : TimerHandle.le a b) :
    a._when ≤ b._when := by
  unfold TimerHandle.le at h; omega

theorem popAll_cons (h : TimerHandle) (rest : List TimerHandle) :
    heappop (h :: rest) = some (h, rest) ∧ popAll (h :: rest) = h :: popAll rest :=
  ⟨rfl, rfl⟩

theorem sorted_heappush (l : List TimerHandle) (h : TimerHandle)
    (hs : List.Sorted TimerHandle.le l) :
    List.Sorted TimerHandle.le (heappush l h) :=
  List.Sorted.orderedInsert h l hs

theorem sorted_schedAll (s : Scheduler) (reqs : List (Int × String))
    (hs : List.Sorted TimerHandle.le s.heap) :
    List.Sorted TimerHandle.le (schedAll s reqs).heap := by
  induction reqs generalizing s with
  | nil => exact hs
  | cons r rest ih =>
    obtain ⟨d, cb⟩ := r
    exact ih _ (sorted_heappush s.heap _ hs)

/-- Claim C6: a timer handle inserted bare into the heap is itself
totally ordered by (deadline, sequence number): the order is
irreflexive, transitive and total (two handles are comparable unless
they agree on both deadline and sequence number); among handles with
equal deadlines it is exactly the sequence-number order, so the handle
scheduled first compares smaller and, pushed in either order, is popped
from the heap first. -/
theorem handle_order_total_stable :
    (∀ a : TimerHandle, ¬ TimerHandle.lt a a) ∧
    (∀ a b c : TimerHandle, TimerHandle.lt a b → TimerHandle.lt b c →
      TimerHandle.lt a c) ∧
    (∀ a b : TimerHandle, TimerHandle.lt a b ∨ TimerHandle.lt b a ∨
      (a._when = b._when ∧ a.seq = b.seq)) ∧
    (∀ a b : TimerHandle, a._when = b._when →
      (TimerHandle.lt a b ↔ a.seq < b.seq)) ∧
    (∀ a b : TimerHandle, a._when = b._when → a.seq < b.seq →
      heappop (heappush (heappush [] a) b) = some (a, [b]) ∧
      heappop (heappush (heappush [] b) a) = some (a, [b])) := by
  refine ⟨?_, ?_, ?_, ?_, ?_⟩
  · intro a; unfold TimerHandle.lt; omega
  · intro a b c hab hbc; unfold TimerHandle.lt at *; omega
  · intro a b; unfold TimerHandle.lt; omega
  · intro a b hw; unfold TimerHandle.lt; omega
  · intro a b hw hs
    have hba : ¬ TimerHandle.le b a := by unfold TimerHandle.le; omega
    have hab : TimerHandle.le a b := by unfold TimerHandle.le; omega
    constructor
    · simp [heappush, List.orderedInsert, hba, heappop]
    · simp [heappush, List.orderedInsert, hab, heappop]

theorem handle_order_total_stable_witness :
    heappop (heappush (heappush [] ⟨3, 1, false, "B"⟩) ⟨3, 2, false, "C"⟩)
      = some (⟨3, 1, false, "B"⟩, [⟨3, 2, false, "C"⟩]) :=
  (handle_order_total_stable.2.2.2.2 ⟨3, 1, false, "B"⟩ ⟨3, 2, false, "C"⟩
    rfl (by decide)).1

theorem popAll_id (l : List TimerHandle) : popAll l = l := by
  induction l with
  | nil => rfl
  | cons h rest ih => simp [popAll, ih]

/-- Claim C7: repeatedly popping the heap yields handles in
non-decreasing deadline order, for every request sequence scheduled
onto a well-formed (sorted) heap; in particular deadlines [5, 3, 3, 1]
with callbacks A, B, C, D scheduled in that order pop as
D(1), B(3), C(3), A(5). -/
theorem pop_order_nondecreasing :
    (∀ (s : Scheduler) (reqs : List (Int × String)),
      List.Sorted TimerHandle.le s.heap →
      List.Sorted (· ≤ ·)
        ((popAll (schedAll s reqs).heap).map TimerHandle._when)) ∧
    ((popAll (schedAll ⟨[], 0⟩
        [(5, "A"), (3, "B"), (3, "C"), (1, "D")]).heap).map TimerHandle.callback
      = ["D", "B", "C", "A"]) := by
  constructor
  · intro s reqs hs
    rw [popAll_id]
    exact List.Pairwise.map TimerHandle._when
      (fun a b h => TimerHandle.le_when h) (sorted_schedAll s reqs hs)
  · decide

theorem pop_order_nondecreasing_witness :
    List.Sorted (· ≤ ·)
      ((popAll (schedAll ⟨[], 0⟩ [(5, "A"), (3, "B"), (3, "C"), (1, "D")]).heap).map
        TimerHandle._when) :=
  pop_order_nondecreasing.1 ⟨[], 0⟩ [(5, "A"), (3, "B"), (3, "C"), (1, "D")]
    List.sorted_nil

theorem pop_ready_cons_cancelled (x : TimerHandle) (rest : List TimerHandle)
    (now : Int) (hc : x._cancelled = true) :
    pop_ready (x :: rest) now = pop_ready rest now := by
  simp [pop_ready, hc]

theorem pop_ready_cons_ready (x : TimerHandle) (rest : List TimerHandle)
    (now : Int) (hc : x._cancelled = false) (hw : x._when ≤ now) :
    pop_ready (x :: rest) now = (some x, rest) := by
  simp [pop_ready, hc, hw]

theorem pop_ready_cons_future (x : TimerHandle) (rest : List TimerHandle)
    (now : Int) (hc : x._cancelled = false) (hw : ¬ x._when ≤ now) :
    pop_ready (x :: rest) now = (none, x :: rest) := by
  simp [pop_ready, hc, hw]

/-- Claim C8: `pop_ready(now)` never returns a handle whose deadline
exceeds now, and never returns a cancelled handle (cancellation marks
the handle, and every handle so marked stays skipped); on a sorted
heap it returns none exactly when the heap is empty or every
non-cancelled handle, in particular the minimum, has its deadline in
the future. -/
theorem pop_ready_safe (now : Int) :
    (∀ (l l2 : List TimerHandle) (h : TimerHandle),
      pop_ready l now = (some h, l2) →
      h._cancelled = false ∧ h._when ≤ now) ∧
    (∀ (s : Scheduler) (sq : Nat) (h : TimerHandle),
      h ∈ (cancelSeq s sq).heap → h.seq = sq → h._cancelled = true) ∧
    (∀ l : List TimerHandle, List.Sorted TimerHandle.le l →
      ((pop_ready l now).1 = none ↔
        ∀ h ∈ l, h._cancelled = true ∨ now < h._when)) := by
  refine ⟨?_, ?_, ?_⟩
  · intro l
    induction l with
    | nil => intro l2 h hp; simp [pop_ready] at hp
    | cons x rest ih =>
      intro l2 h hp
      cases hcv : x._cancelled with
      | true =>
        rw [pop_ready_cons_cancelled x rest now hcv] at hp
        exact ih l2 h hp
      | false =>
        by_cases hw : x._when ≤ now
        · rw [pop_ready_cons_ready x rest now hcv hw] at hp
          injection hp with h1 h2
          injection h1 with h1
          subst h1
          exact ⟨hcv, hw⟩
        · rw [pop_ready_cons_future x rest now hcv hw] at hp
          injection hp with h1 h2
          cases h1
  · intro s sq h hm hseq
    simp only [cancelSeq, List.mem_map] at hm
    obtain ⟨h0, hh0, rfl⟩ := hm
    by_cases h0s : h0.seq = sq
    · simp [h0s]
    · rw [if_neg h0s] at hseq ⊢
      exact absurd hseq h0s
  · intro l
    induction l with
    | nil => intro _; simp [pop_ready]
    | cons x rest ih =>
      intro hs
      obtain ⟨hx, hrest⟩ := List.sorted_cons.mp hs
      cases hcv : x._cancelled with
      | true =>
        rw [pop_ready_cons_cancelled x rest now hcv, ih hrest]
        constructor
        · intro hall h hm
          rcases List.mem_cons.mp hm with rfl | hm2
          · exact Or.inl hcv
          · exact hall h hm2
        · intro hall h hm
          exact hall h (List.mem_cons_of_mem x hm)
      | false =>
        by_cases hw : x._when ≤ now
        · rw [pop_ready_cons_ready x rest now hcv hw]
          refine iff_of_false (by simp) ?_
          intro hall
          rcases hall x (List.mem_cons_self x rest) with h1 | h1
          · rw [hcv] at h1
            cases h1
          · omega
        · rw [pop_ready_cons_future x rest now hcv hw]
          refine iff_of_true rfl ?_
          intro h hm
          rcases List.mem_cons.mp hm with rfl | hm2
          · right; omega
          · right
            have := TimerHandle.le_when (hx h hm2)
            omega

theorem pop_ready_safe_witness :
    (pop_ready [⟨10, 0, true, "X"⟩] 10).1 = none :=
  ((pop_ready_safe 10).2.2 [⟨10, 0, true, "X"⟩]
    (List.sorted_singleton _)).mpr (by decide)
